import Mathlib

/-!
Shallow embedding of the network-stater reporter (src/main.go).

The program periodically reads cumulative per-interface byte counters from
a /proc/net/dev style table, aggregates them over selected interfaces,
computes instantaneous and 5-minute windowed average throughput, and posts
a JSON payload.  We embed the counter reader (`readTotals`), the history
pruning (`pruneOld`) and the body of one ticker iteration of `main`
(`tick`).  Times and rates are modelled as rationals; the uint64 counters
are naturals reduced mod 2^64 where the source adds them.  The Go code
returns a partial accumulator together with an error; callers only use the
value when the error is nil, so the reader is modelled as `Except`.
-/

namespace NetworkStater

/-- Aggregated interface counters (`type counters struct{ rx, tx uint64 }`). -/
structure counters where
  rx : ℕ
  tx : ℕ
deriving DecidableEq, Repr

/-- Modulus of the uint64 counter arithmetic. -/
def u64 : ℕ := 2 ^ 64

/-- `strings.TrimSpace`: drop whitespace from both ends.  Lines are
modelled as character lists so that the embedding computes by reduction. -/
def goTrim (l : List Char) : List Char :=
  ((l.dropWhile Char.isWhitespace).reverse.dropWhile Char.isWhitespace).reverse

/-- `strings.Split(s, ":")`: split at every colon; adjacent separators give
empty pieces, and the result always has one piece more than the number of
colons. -/
def splitOnColon : List Char → List (List Char)
  | [] => [[]]
  | c :: rest =>
    if c = ':' then [] :: splitOnColon rest
    else
      match splitOnColon rest with
      | h :: t => (c :: h) :: t
      | [] => [[c]]

/-- Split at every whitespace character, keeping empty pieces. -/
def splitWhite : List Char → List (List Char)
  | [] => [[]]
  | c :: rest =>
    if c.isWhitespace then [] :: splitWhite rest
    else
      match splitWhite rest with
      | h :: t => (c :: h) :: t
      | [] => [[c]]

/-- `strings.Fields`: the maximal whitespace-free runs, empties dropped. -/
def goFields (l : List Char) : List (List Char) :=
  (splitWhite l).filter (fun t => !t.isEmpty)

/-- `strconv.ParseUint(s, 10, 64)`: decimal digits only, no sign, value must
fit in 64 bits. -/
def parseUint64 (l : List Char) : Option ℕ :=
  if l ≠ [] ∧ l.all Char.isDigit then
    let n := l.foldl (fun acc c => acc * 10 + (c.toNat - 48)) 0
    if n < u64 then some n else none
  else none

/-- `strings.HasPrefix(iface, "en")`. -/
def startsWithEn : List Char → Bool
  | 'e' :: 'n' :: _ => true
  | _ => false

/-- The interface filter of `readTotals` (line 79): only uplinks named en*
are counted; `lo` and everything else is skipped. -/
def ifaceSelected (iface : List Char) : Bool :=
  !(iface == ['l', 'o']) && startsWithEn iface

/-- The scan loop of `readTotals` (lines 64 to 94) over the remaining lines;
`lineNum` is the running line counter and `c` the accumulator. -/
def readTotalsAux : List (List Char) → ℕ → counters → Except String counters
  | [], _, c => .ok c
  | rawLine :: rest, lineNum, c =>
    if lineNum < 2 then readTotalsAux rest (lineNum + 1) c
    else
      let line := goTrim rawLine
      if line.isEmpty then readTotalsAux rest (lineNum + 1) c
      else
        match splitOnColon line with
        | [p0, p1] =>
          let iface := goTrim p0
          if ifaceSelected iface then
            let fields := goFields p1
            if fields.length < 16 then
              .error ("unexpected format for " ++ String.mk iface)
            else
              match parseUint64 (fields.getD 0 []), parseUint64 (fields.getD 8 []) with
              | some rx, some tx =>
                readTotalsAux rest (lineNum + 1)
                  ⟨(c.rx + rx) % u64, (c.tx + tx) % u64⟩
              | _, _ => .error ("parse counters failed for " ++ String.mk iface)
          else
            readTotalsAux rest (lineNum + 1) c
        | _ => readTotalsAux rest (lineNum + 1) c

/-- `readTotals`, with the opened table given as its list of lines. -/
def readTotals (lines : List String) : Except String counters :=
  readTotalsAux (lines.map String.data) 0 ⟨0, 0⟩

/-- The averaging window in seconds (`const avgWindow = 5 * time.Minute`). -/
def avgWindow : ℚ := 300

/-- One point of the cumulative-delta history (`type histEntry`). -/
structure histEntry where
  t : ℚ
  cumRx : ℚ
  cumTx : ℚ
deriving DecidableEq, Repr, Inhabited

/-- `pruneOld` (lines 106 to 114): drop entries from the front while the
front entry itself is older than `now - avgWindow`, but never drop the last
remaining entry. -/
def pruneOld : List histEntry → ℚ → List histEntry
  | a :: b :: rest, now =>
    if a.t < now - avgWindow then pruneOld (b :: rest) now else a :: b :: rest
  | l, _ => l

/-- Modelled from the spec (section 4.3): pruning is described as dropping
from the front while the second-oldest entry is still older than
`now - window`.  The source `pruneOld` instead tests the front entry itself;
this definition exists only to compare the two rules. -/
def pruneOldSpec : List histEntry → ℚ → List histEntry
  | a :: b :: rest, now =>
    if b.t < now - avgWindow then pruneOldSpec (b :: rest) now else a :: b :: rest
  | l, _ => l

/-- The loop state of `main`: previous sample, its capture time, the running
cumulative deltas, and the history (lines 143 to 152). -/
structure LoopState where
  prev : counters
  prevAt : ℚ
  cumRx : ℚ
  cumTx : ℚ
  history : List histEntry
deriving DecidableEq, Repr

/-- The numeric fields of the reported `Payload` (lines 26 to 45); the
string metadata and the epoch timestamp carry no rate information and are
omitted. -/
structure Payload where
  intervalSeconds : ℚ
  rxBytesPerSec : ℚ
  txBytesPerSec : ℚ
  rxBitsPerSec : ℚ
  txBitsPerSec : ℚ
  totalBytesPerSec : ℚ
  totalBitsPerSec : ℚ
  rxBytesPerSec5m : ℚ
  txBytesPerSec5m : ℚ
  totalBytesPerSec5m : ℚ
  rxBitsPerSec5m : ℚ
  txBitsPerSec5m : ℚ
  totalBitsPerSec5m : ℚ
deriving DecidableEq, Repr

/-- Receive delta of one tick (lines 172 to 175): zero when the counter
decreased. -/
def deltaRx (prev cur : counters) : ℚ :=
  if prev.rx ≤ cur.rx then ((cur.rx - prev.rx : ℕ) : ℚ) else 0

/-- Transmit delta of one tick (lines 176 to 178). -/
def deltaTx (prev cur : counters) : ℚ :=
  if prev.tx ≤ cur.tx then ((cur.tx - prev.tx : ℕ) : ℚ) else 0

/-- Cumulative receive delta after one tick (`cumRx += drx`, line 183). -/
def tickRx (s : LoopState) (cur : counters) : ℚ :=
  s.cumRx + deltaRx s.prev cur

/-- Cumulative transmit delta after one tick (`cumTx += dtx`, line 184). -/
def tickTx (s : LoopState) (cur : counters) : ℚ :=
  s.cumTx + deltaTx s.prev cur

/-- The history after one tick: append the new cumulative point and prune
(lines 185 to 186). -/
def tickHist (s : LoopState) (now : ℚ) (cur : counters) : List histEntry :=
  pruneOld (s.history ++ [⟨now, tickRx s cur, tickTx s cur⟩]) now

/-- The payload built on a successful tick (lines 179 to 218): instantaneous
rates are delta over elapsed, the 5-minute averages divide by the age of the
oldest retained history point, falling back to the instantaneous rates when
that age is not positive. -/
def tickPayload (s : LoopState) (now : ℚ) (cur : counters) : Payload :=
  let sec := now - s.prevAt
  let rxBps := deltaRx s.prev cur / sec
  let txBps := deltaTx s.prev cur / sec
  let old := (tickHist s now cur).headI
  let dt5 := now - old.t
  let rx5m := if 0 < dt5 then (tickRx s cur - old.cumRx) / dt5 else rxBps
  let tx5m := if 0 < dt5 then (tickTx s cur - old.cumTx) / dt5 else txBps
  { intervalSeconds := sec
    rxBytesPerSec := rxBps
    txBytesPerSec := txBps
    rxBitsPerSec := rxBps * 8
    txBitsPerSec := txBps * 8
    totalBytesPerSec := rxBps + txBps
    totalBitsPerSec := (rxBps + txBps) * 8
    rxBytesPerSec5m := rx5m
    txBytesPerSec5m := tx5m
    totalBytesPerSec5m := rx5m + tx5m
    rxBitsPerSec5m := rx5m * 8
    txBitsPerSec5m := tx5m * 8
    totalBitsPerSec5m := (rx5m + tx5m) * 8 }

/-- The body of one ticker iteration of `main` (lines 162 to 242): a failed
read or a non-positive elapsed time skips the tick and leaves the state
unchanged; otherwise the cumulative deltas and the pruned history are
updated, the payload is produced, and the baseline advances to the current
sample. -/
def tick (s : LoopState) (now : ℚ) (readResult : Except String counters) :
    LoopState × Option Payload :=
  match readResult with
  | .error _ => (s, none)
  | .ok cur =>
    if now - s.prevAt ≤ 0 then (s, none)
    else
      ({ prev := cur, prevAt := now, cumRx := tickRx s cur,
         cumTx := tickTx s cur, history := tickHist s now cur },
       some (tickPayload s now cur))

/-- The state right after the baseline read of `main` (lines 143 to 152):
cumulative deltas start at zero and the history holds the single baseline
point. -/
def initState (c0 : counters) (t0 : ℚ) : LoopState :=
  { prev := c0, prevAt := t0, cumRx := 0, cumTx := 0, history := [⟨t0, 0, 0⟩] }

/-- Iterate `tick` over a list of (capture time, read counters) inputs. -/
def runTicks (s : LoopState) : List (ℚ × counters) → LoopState
  | [] => s
  | (now, cur) :: rest => runTicks (tick s now (.ok cur)).1 rest

/-- A well-formed tick input sequence relative to a window end `wEnd`:
capture times strictly increase, stay at or below `wEnd`, and the counters
never decrease.  `tp`, `cp` are the time and counters of the previous
sample. -/
def validRun (wEnd : ℚ) : ℚ → counters → List (ℚ × counters) → Bool
  | _, _, [] => true
  | tp, cp, (now, cur) :: rest =>
    decide (tp < now) && decide (now ≤ wEnd) &&
      decide (cp.rx ≤ cur.rx) && decide (cp.tx ≤ cur.tx) &&
      validRun wEnd now cur rest

/-- A line that passes the interface filter: its trimmed content splits on
the colon into exactly two parts and the trimmed name is a selected en*
uplink. -/
def linePasses (raw : List Char) : Bool :=
  match splitOnColon (goTrim raw) with
  | [p0, _] => ifaceSelected (goTrim p0)
  | _ => false

/-- A filter-passing line whose data part is malformed: fewer than 16
fields, or an unparseable receive or transmit field. -/
def lineMalformed (raw : List Char) : Bool :=
  match splitOnColon (goTrim raw) with
  | [p0, p1] =>
    ifaceSelected (goTrim p0) &&
      (decide ((goFields p1).length < 16) ||
        (parseUint64 ((goFields p1).getD 0 [])).isNone ||
        (parseUint64 ((goFields p1).getD 8 [])).isNone)
  | _ => false

/-- The cumulative deltas recorded in the history never exceed the current
cumulative deltas.  This holds at startup and is preserved by every tick,
and it is what makes the windowed numerator non-negative. -/
def CumBound (s : LoopState) : Prop :=
  ∀ e ∈ s.history, e.cumRx ≤ s.cumRx ∧ e.cumTx ≤ s.cumTx

/-- States reached from `initState c0 t0` along ticks that stay within one
window of the start: the baseline history point is still at the front and
the cumulative deltas equal the counter totals gained since startup. -/
structure Reach (t0 : ℚ) (c0 : counters) (s : LoopState) : Prop where
  ne : s.history ≠ []
  head : s.history.headI = ⟨t0, 0, 0⟩
  cumRxEq : s.cumRx = (s.prev.rx : ℚ) - (c0.rx : ℚ)
  cumTxEq : s.cumTx = (s.prev.tx : ℚ) - (c0.tx : ℚ)
  t0le : t0 ≤ s.prevAt

/-- A counter table whose two traffic-bearing interfaces are not loopback
but also not en*-named. -/
def tableWl : List String :=
  ["Inter-|   Receive                  | Transmit",
   " face |bytes packets errs drop fifo frame compressed multicast|bytes packets errs drop fifo colls carrier compressed",
   "wl0: 1000 0 0 0 0 0 0 0 500 0 0 0 0 0 0 0",
   "wl1: 1000 0 0 0 0 0 0 0 500 0 0 0 0 0 0 0"]

/-- First read: two en* interfaces, each with rx=1000 and tx=500. -/
def tableEn1 : List String :=
  ["Inter-|   Receive                  | Transmit",
   " face |bytes packets errs drop fifo frame compressed multicast|bytes packets errs drop fifo colls carrier compressed",
   "en0: 1000 0 0 0 0 0 0 0 500 0 0 0 0 0 0 0",
   "en1: 1000 0 0 0 0 0 0 0 500 0 0 0 0 0 0 0"]

/-- Second read, one second later: each en* interface at rx=3000, tx=1500. -/
def tableEn2 : List String :=
  ["Inter-|   Receive                  | Transmit",
   " face |bytes packets errs drop fifo frame compressed multicast|bytes packets errs drop fifo colls carrier compressed",
   "en0: 3000 0 0 0 0 0 0 0 1500 0 0 0 0 0 0 0",
   "en1: 3000 0 0 0 0 0 0 0 1500 0 0 0 0 0 0 0"]

/-! ### Basic lemmas about pruning and the tick step -/

lemma headI_mem {l : List histEntry} (h : l ≠ []) : l.headI ∈ l := by
  cases l with
  | nil => exact absurd rfl h
  | cons a t => simp

lemma pruneOld_ne_nil : ∀ (l : List histEntry) (now : ℚ), l ≠ [] → pruneOld l now ≠ []
  | [], _, h => absurd rfl h
  | [a], _, _ => by simp [pruneOld]
  | a :: b :: r, now, _ => by
    rw [pruneOld]
    split
    · exact pruneOld_ne_nil (b :: r) now (by simp)
    · simp

lemma pruneOld_suffix : ∀ (l : List histEntry) (now : ℚ), (pruneOld l now).IsSuffix l
  | [], _ => by simp [pruneOld]
  | [a], _ => by simp [pruneOld]
  | a :: b :: r, now => by
    rw [pruneOld]
    split
    · exact (pruneOld_suffix (b :: r) now).trans (List.suffix_cons a (b :: r))
    · exact List.suffix_refl _

lemma mem_of_mem_pruneOld {e : histEntry} {l : List histEntry} {now : ℚ}
    (h : e ∈ pruneOld l now) : e ∈ l :=
  (pruneOld_suffix l now).subset h

lemma pruneOld_cons_of_not_lt {a : histEntry} {now : ℚ} (l : List histEntry)
    (h : ¬ a.t < now - avgWindow) : pruneOld (a :: l) now = a :: l := by
  cases l <;> simp [pruneOld, h]

lemma tick_error (s : LoopState) (now : ℚ) (msg : String) :
    tick s now (.error msg) = (s, none) := rfl

lemma tick_ok_skip (s : LoopState) (now : ℚ) (cur : counters)
    (h : now - s.prevAt ≤ 0) : tick s now (.ok cur) = (s, none) := by
  simp [tick, h]

lemma tick_ok_run (s : LoopState) (now : ℚ) (cur : counters)
    (h : ¬ now - s.prevAt ≤ 0) :
    tick s now (.ok cur) =
      ({ prev := cur, prevAt := now, cumRx := tickRx s cur,
         cumTx := tickTx s cur, history := tickHist s now cur },
       some (tickPayload s now cur)) := by
  simp [tick, h]

lemma deltaRx_nonneg (prev cur : counters) : 0 ≤ deltaRx prev cur := by
  unfold deltaRx
  split
  · exact Nat.cast_nonneg _
  · exact le_refl 0

lemma deltaTx_nonneg (prev cur : counters) : 0 ≤ deltaTx prev cur := by
  unfold deltaTx
  split
  · exact Nat.cast_nonneg _
  · exact le_refl 0

lemma tickHist_ne_nil (s : LoopState) (now : ℚ) (cur : counters) :
    tickHist s now cur ≠ [] := by
  unfold tickHist
  exact pruneOld_ne_nil _ now (by simp)

/-! ### C1: instantaneous rate formulas -/

/-- C1: for a tick with componentwise non-decreasing counters and positive
elapsed time, the reported instantaneous rates are (current − previous)
divided by elapsed, each bits-per-second field is exactly 8 times the
bytes-per-second field, and the totals are the sums of the two
directions. -/
theorem tick_instantaneous_rates (s : LoopState) (now : ℚ) (cur : counters)
    (hsec : s.prevAt < now) (hrx : s.prev.rx ≤ cur.rx) (htx : s.prev.tx ≤ cur.tx) :
    ∃ p : Payload, (tick s now (.ok cur)).2 = some p ∧
      p.rxBytesPerSec = ((cur.rx : ℚ) - (s.prev.rx : ℚ)) / (now - s.prevAt) ∧
      p.txBytesPerSec = ((cur.tx : ℚ) - (s.prev.tx : ℚ)) / (now - s.prevAt) ∧
      p.rxBitsPerSec = 8 * p.rxBytesPerSec ∧
      p.txBitsPerSec = 8 * p.txBytesPerSec ∧
      p.rxBitsPerSec5m = 8 * p.rxBytesPerSec5m ∧
      p.txBitsPerSec5m = 8 * p.txBytesPerSec5m ∧
      p.totalBytesPerSec = p.rxBytesPerSec + p.txBytesPerSec ∧
      p.totalBitsPerSec = (p.rxBytesPerSec + p.txBytesPerSec) * 8 ∧
      p.totalBitsPerSec = 8 * p.totalBytesPerSec := by
  have hn : ¬ now - s.prevAt ≤ 0 := not_le.mpr (sub_pos.mpr hsec)
  refine ⟨tickPayload s now cur, by rw [tick_ok_run s now cur hn], ?_, ?_, ?_, ?_, ?_, ?_, ?_, ?_, ?_⟩
  · show deltaRx s.prev cur / (now - s.prevAt) = _
    rw [deltaRx, if_pos hrx, Nat.cast_sub hrx]
  · show deltaTx s.prev cur / (now - s.prevAt) = _
    rw [deltaTx, if_pos htx, Nat.cast_sub htx]
  · exact mul_comm _ 8
  · exact mul_comm _ 8
  · exact mul_comm _ 8
  · exact mul_comm _ 8
  · rfl
  · rfl
  · exact mul_comm _ 8

/-- Witness for C1 at a concrete tick. -/
theorem tick_instantaneous_rates_witness :
    (initState ⟨10, 20⟩ 0).prevAt < 2 ∧ (10 : ℕ) ≤ 16 ∧ (20 : ℕ) ≤ 30 ∧
    ∃ p : Payload, (tick (initState ⟨10, 20⟩ 0) 2 (.ok ⟨16, 30⟩)).2 = some p ∧
      p.rxBytesPerSec = ((16 : ℚ) - (10 : ℚ)) / ((2 : ℚ) - 0) ∧
      p.txBytesPerSec = ((30 : ℚ) - (20 : ℚ)) / ((2 : ℚ) - 0) ∧
      p.rxBitsPerSec = 8 * p.rxBytesPerSec ∧
      p.txBitsPerSec = 8 * p.txBytesPerSec ∧
      p.rxBitsPerSec5m = 8 * p.rxBytesPerSec5m ∧
      p.txBitsPerSec5m = 8 * p.txBytesPerSec5m ∧
      p.totalBytesPerSec = p.rxBytesPerSec + p.txBytesPerSec ∧
      p.totalBitsPerSec = (p.rxBytesPerSec + p.txBytesPerSec) * 8 ∧
      p.totalBitsPerSec = 8 * p.totalBytesPerSec :=
  ⟨by norm_num [initState], by norm_num, by norm_num,
    tick_instantaneous_rates (initState ⟨10, 20⟩ 0) 2 ⟨16, 30⟩
      (by norm_num [initState]) (by norm_num [initState]) (by norm_num [initState])⟩

/-! ### C3: non-positive elapsed time skips the tick -/

/-- C3: when the elapsed time since the previous sample is not positive, no
report is produced, the state (baseline counters, baseline timestamp,
cumulative deltas and history) is unchanged, and the next tick therefore
behaves exactly as if the skipped tick had never happened. -/
theorem tick_skip_nonpositive_elapsed (s : LoopState) (now now2 : ℚ)
    (cur : counters) (r2 : Except String counters) (h : now ≤ s.prevAt) :
    tick s now (.ok cur) = (s, none) ∧
    tick (tick s now (.ok cur)).1 now2 r2 = tick s now2 r2 := by
  have h0 : now - s.prevAt ≤ 0 := sub_nonpos.mpr h
  exact ⟨tick_ok_skip s now cur h0, by rw [tick_ok_skip s now cur h0]⟩

/-- Witness for C3: a duplicate timestamp is skipped and the later valid
tick computes against the original baseline. -/
theorem tick_skip_nonpositive_elapsed_witness :
    (10 : ℚ) ≤ (initState ⟨5, 5⟩ 10).prevAt ∧
    tick (initState ⟨5, 5⟩ 10) 10 (.ok ⟨7, 7⟩) = (initState ⟨5, 5⟩ 10, none) ∧
    tick (tick (initState ⟨5, 5⟩ 10) 10 (.ok ⟨7, 7⟩)).1 11 (.ok ⟨8, 8⟩) =
      tick (initState ⟨5, 5⟩ 10) 11 (.ok ⟨8, 8⟩) :=
  ⟨le_refl _,
    tick_skip_nonpositive_elapsed (initState ⟨5, 5⟩ 10) 10 11 ⟨7, 7⟩ (.ok ⟨8, 8⟩) (le_refl _)⟩

/-! ### C6: the history is never empty -/

/-- C6: the history starts with exactly one entry, pruning a non-empty
history yields a non-empty history, and the history after any tick is
non-empty whenever it was non-empty before. -/
theorem history_never_empty (l : List histEntry) (now2 : ℚ) (hl : l ≠ [])
    (s : LoopState) (now : ℚ) (r : Except String counters) (hs : s.history ≠ [])
    (c0 : counters) (t0 : ℚ) :
    pruneOld l now2 ≠ [] ∧
    (initState c0 t0).history = [⟨t0, 0, 0⟩] ∧
    ((tick s now r).1).history ≠ [] := by
  refine ⟨pruneOld_ne_nil l now2 hl, rfl, ?_⟩
  match r with
  | .error msg => rw [tick_error]; exact hs
  | .ok cur =>
    by_cases h : now - s.prevAt ≤ 0
    · rw [tick_ok_skip s now cur h]; exact hs
    · rw [tick_ok_run s now cur h]; exact tickHist_ne_nil s now cur

/-- Witness for C6 at concrete inputs. -/
theorem history_never_empty_witness :
    ([⟨0, 0, 0⟩] : List histEntry) ≠ [] ∧
    (initState ⟨1, 1⟩ 0).history ≠ [] ∧
    (pruneOld [⟨0, 0, 0⟩] 1000 ≠ [] ∧
     (initState ⟨2, 2⟩ 5).history = [⟨5, 0, 0⟩] ∧
     ((tick (initState ⟨1, 1⟩ 0) 1 (.ok ⟨3, 3⟩)).1).history ≠ []) :=
  ⟨List.cons_ne_nil _ _, List.cons_ne_nil _ _,
    history_never_empty [⟨0, 0, 0⟩] 1000 (List.cons_ne_nil _ _)
      (initState ⟨1, 1⟩ 0) 1 (.ok ⟨3, 3⟩) (List.cons_ne_nil _ _) ⟨2, 2⟩ 5⟩

/-! ### C2: rates are never negative -/

lemma cumBound_initState (c0 : counters) (t0 : ℚ) : CumBound (initState c0 t0) := by
  intro e he
  simp only [initState, List.mem_singleton] at he
  subst he
  exact ⟨le_refl 0, le_refl 0⟩

lemma mem_tickHist_bound {s : LoopState} {now : ℚ} {cur : counters}
    (hs : CumBound s) {e : histEntry} (he : e ∈ tickHist s now cur) :
    e.cumRx ≤ tickRx s cur ∧ e.cumTx ≤ tickTx s cur := by
  have hmem : e ∈ s.history ++ [⟨now, tickRx s cur, tickTx s cur⟩] :=
    mem_of_mem_pruneOld he
  rcases List.mem_append.mp hmem with h | h
  · obtain ⟨h1, h2⟩ := hs e h
    exact ⟨h1.trans (le_add_of_nonneg_right (deltaRx_nonneg _ _)),
           h2.trans (le_add_of_nonneg_right (deltaTx_nonneg _ _))⟩
  · simp only [List.mem_singleton] at h
    subst h
    exact ⟨le_refl _, le_refl _⟩

lemma cumBound_tick (s : LoopState) (now : ℚ) (r : Except String counters)
    (hs : CumBound s) : CumBound (tick s now r).1 := by
  match r with
  | .error msg => rw [tick_error]; exact hs
  | .ok cur =>
    by_cases h : now - s.prevAt ≤ 0
    · rw [tick_ok_skip s now cur h]; exact hs
    · rw [tick_ok_run s now cur h]
      intro e he
      exact mem_tickHist_bound hs he

/-- C2: a counter decrease yields a zero delta (and a zero reported rate)
for that direction, and, from any state satisfying the history invariant,
every rate field of the produced payload is non-negative; the invariant
holds initially and is preserved by every tick. -/
theorem tick_rates_nonneg (s : LoopState) (now : ℚ) (cur : counters)
    (r : Except String counters) (c0 : counters) (t0 : ℚ)
    (hs : CumBound s) (hsec : s.prevAt < now) :
    (cur.rx < s.prev.rx →
      deltaRx s.prev cur = 0 ∧ (tickPayload s now cur).rxBytesPerSec = 0) ∧
    (cur.tx < s.prev.tx →
      deltaTx s.prev cur = 0 ∧ (tickPayload s now cur).txBytesPerSec = 0) ∧
    (tick s now (.ok cur)).2 = some (tickPayload s now cur) ∧
    0 ≤ (tickPayload s now cur).rxBytesPerSec ∧
    0 ≤ (tickPayload s now cur).txBytesPerSec ∧
    0 ≤ (tickPayload s now cur).rxBitsPerSec ∧
    0 ≤ (tickPayload s now cur).txBitsPerSec ∧
    0 ≤ (tickPayload s now cur).totalBytesPerSec ∧
    0 ≤ (tickPayload s now cur).totalBitsPerSec ∧
    0 ≤ (tickPayload s now cur).rxBytesPerSec5m ∧
    0 ≤ (tickPayload s now cur).txBytesPerSec5m ∧
    0 ≤ (tickPayload s now cur).totalBytesPerSec5m ∧
    0 ≤ (tickPayload s now cur).rxBitsPerSec5m ∧
    0 ≤ (tickPayload s now cur).txBitsPerSec5m ∧
    0 ≤ (tickPayload s now cur).totalBitsPerSec5m ∧
    CumBound (tick s now r).1 ∧
    CumBound (initState c0 t0) := by
  have hpos : 0 < now - s.prevAt := sub_pos.mpr hsec
  have hn : ¬ now - s.prevAt ≤ 0 := not_le.mpr hpos
  have hrx : 0 ≤ deltaRx s.prev cur / (now - s.prevAt) :=
    div_nonneg (deltaRx_nonneg _ _) hpos.le
  have htx : 0 ≤ deltaTx s.prev cur / (now - s.prevAt) :=
    div_nonneg (deltaTx_nonneg _ _) hpos.le
  have hold : (tickHist s now cur).headI ∈ tickHist s now cur :=
    headI_mem (tickHist_ne_nil s now cur)
  have hbound := mem_tickHist_bound hs hold
  have h5rx : 0 ≤ (tickPayload s now cur).rxBytesPerSec5m := by
    show 0 ≤ if 0 < now - (tickHist s now cur).headI.t then _ else _
    split
    · exact div_nonneg (sub_nonneg.mpr hbound.1) (by linarith)
    · exact hrx
  have h5tx : 0 ≤ (tickPayload s now cur).txBytesPerSec5m := by
    show 0 ≤ if 0 < now - (tickHist s now cur).headI.t then _ else _
    split
    · exact div_nonneg (sub_nonneg.mpr hbound.2) (by linarith)
    · exact htx
  have h8 : (0 : ℚ) ≤ 8 := by norm_num
  refine ⟨?_, ?_, by rw [tick_ok_run s now cur hn], hrx, htx,
    mul_nonneg hrx h8, mul_nonneg htx h8, add_nonneg hrx htx,
    mul_nonneg (add_nonneg hrx htx) h8, h5rx, h5tx, add_nonneg h5rx h5tx,
    mul_nonneg h5rx h8, mul_nonneg h5tx h8, mul_nonneg (add_nonneg h5rx h5tx) h8,
    cumBound_tick s now r hs, cumBound_initState c0 t0⟩
  · intro hlt
    have hz : deltaRx s.prev cur = 0 := by
      rw [deltaRx, if_neg (not_le.mpr hlt)]
    exact ⟨hz, by show deltaRx s.prev cur / _ = 0; rw [hz, zero_div]⟩
  · intro hlt
    have hz : deltaTx s.prev cur = 0 := by
      rw [deltaTx, if_neg (not_le.mpr hlt)]
    exact ⟨hz, by show deltaTx s.prev cur / _ = 0; rw [hz, zero_div]⟩

/-- Witness for C2 at a concrete tick with a decreasing receive counter. -/
theorem tick_rates_nonneg_witness :
    CumBound (initState ⟨3, 4⟩ 0) ∧ (initState ⟨3, 4⟩ 0).prevAt < 1 ∧
    (((2 : ℕ) < 3 →
      deltaRx ⟨3, 4⟩ ⟨2, 10⟩ = 0 ∧
        (tickPayload (initState ⟨3, 4⟩ 0) 1 ⟨2, 10⟩).rxBytesPerSec = 0) ∧
    ((10 : ℕ) < 4 →
      deltaTx ⟨3, 4⟩ ⟨2, 10⟩ = 0 ∧
        (tickPayload (initState ⟨3, 4⟩ 0) 1 ⟨2, 10⟩).txBytesPerSec = 0) ∧
    (tick (initState ⟨3, 4⟩ 0) 1 (.ok ⟨2, 10⟩)).2 =
      some (tickPayload (initState ⟨3, 4⟩ 0) 1 ⟨2, 10⟩) ∧
    0 ≤ (tickPayload (initState ⟨3, 4⟩ 0) 1 ⟨2, 10⟩).rxBytesPerSec ∧
    0 ≤ (tickPayload (initState ⟨3, 4⟩ 0) 1 ⟨2, 10⟩).txBytesPerSec ∧
    0 ≤ (tickPayload (initState ⟨3, 4⟩ 0) 1 ⟨2, 10⟩).rxBitsPerSec ∧
    0 ≤ (tickPayload (initState ⟨3, 4⟩ 0) 1 ⟨2, 10⟩).txBitsPerSec ∧
    0 ≤ (tickPayload (initState ⟨3, 4⟩ 0) 1 ⟨2, 10⟩).totalBytesPerSec ∧
    0 ≤ (tickPayload (initState ⟨3, 4⟩ 0) 1 ⟨2, 10⟩).totalBitsPerSec ∧
    0 ≤ (tickPayload (initState ⟨3, 4⟩ 0) 1 ⟨2, 10⟩).rxBytesPerSec5m ∧
    0 ≤ (tickPayload (initState ⟨3, 4⟩ 0) 1 ⟨2, 10⟩).txBytesPerSec5m ∧
    0 ≤ (tickPayload (initState ⟨3, 4⟩ 0) 1 ⟨2, 10⟩).totalBytesPerSec5m ∧
    0 ≤ (tickPayload (initState ⟨3, 4⟩ 0) 1 ⟨2, 10⟩).rxBitsPerSec5m ∧
    0 ≤ (tickPayload (initState ⟨3, 4⟩ 0) 1 ⟨2, 10⟩).txBitsPerSec5m ∧
    0 ≤ (tickPayload (initState ⟨3, 4⟩ 0) 1 ⟨2, 10⟩).totalBitsPerSec5m ∧
    CumBound (tick (initState ⟨3, 4⟩ 0) 1 (.ok ⟨2, 10⟩)).1 ∧
    CumBound (initState ⟨0, 0⟩ 0)) :=
  ⟨cumBound_initState ⟨3, 4⟩ 0, by norm_num [initState],
    tick_rates_nonneg (initState ⟨3, 4⟩ 0) 1 ⟨2, 10⟩ (.ok ⟨2, 10⟩) ⟨0, 0⟩ 0
      (cumBound_initState ⟨3, 4⟩ 0) (by norm_num [initState])⟩

/-! ### C4: the windowed average formula -/

/-- C4: on a successful tick the 5-minute averages equal the cumulative
delta since the oldest retained history point divided by the age of that
point; when the oldest retained point is the freshly appended current point
(age zero) they instead equal the instantaneous rates, so every division
performed has a positive divisor. -/
theorem tick_windowed_average (s : LoopState) (now : ℚ) (cur : counters)
    (hsec : s.prevAt < now) (hhist : ∀ e ∈ s.history, e.t < now) :
    (tick s now (.ok cur)).2 = some (tickPayload s now cur) ∧
    (tickHist s now cur).headI.t ≤ now ∧
    ((tickHist s now cur).headI.t < now →
      (tickPayload s now cur).rxBytesPerSec5m =
        (tickRx s cur - (tickHist s now cur).headI.cumRx) /
          (now - (tickHist s now cur).headI.t) ∧
      (tickPayload s now cur).txBytesPerSec5m =
        (tickTx s cur - (tickHist s now cur).headI.cumTx) /
          (now - (tickHist s now cur).headI.t)) ∧
    ((tickHist s now cur).headI.t = now →
      (tickHist s now cur).headI = ⟨now, tickRx s cur, tickTx s cur⟩ ∧
      (tickPayload s now cur).rxBytesPerSec5m =
        (tickPayload s now cur).rxBytesPerSec ∧
      (tickPayload s now cur).txBytesPerSec5m =
        (tickPayload s now cur).txBytesPerSec) := by
  have hn : ¬ now - s.prevAt ≤ 0 := not_le.mpr (sub_pos.mpr hsec)
  have hold : (tickHist s now cur).headI ∈ tickHist s now cur :=
    headI_mem (tickHist_ne_nil s now cur)
  have hmem : (tickHist s now cur).headI ∈
      s.history ++ [⟨now, tickRx s cur, tickTx s cur⟩] :=
    mem_of_mem_pruneOld hold
  have hle : (tickHist s now cur).headI.t ≤ now := by
    rcases List.mem_append.mp hmem with h | h
    · exact (hhist _ h).le
    · simp only [List.mem_singleton] at h
      rw [h]
  refine ⟨by rw [tick_ok_run s now cur hn], hle, ?_, ?_⟩
  · intro hlt
    have hpos : 0 < now - (tickHist s now cur).headI.t := sub_pos.mpr hlt
    constructor
    · show (if 0 < now - (tickHist s now cur).headI.t then _ else _) = _
      rw [if_pos hpos]
    · show (if 0 < now - (tickHist s now cur).headI.t then _ else _) = _
      rw [if_pos hpos]
  · intro heq
    have hnew : (tickHist s now cur).headI = ⟨now, tickRx s cur, tickTx s cur⟩ := by
      rcases List.mem_append.mp hmem with h | h
      · exact absurd heq (ne_of_lt (hhist _ h))
      · simpa using h
    have hz : ¬ 0 < now - (tickHist s now cur).headI.t := by
      rw [heq]
      simp
    refine ⟨hnew, ?_, ?_⟩
    · show (if 0 < now - (tickHist s now cur).headI.t then _ else _) = _
      rw [if_neg hz]
      rfl
    · show (if 0 < now - (tickHist s now cur).headI.t then _ else _) = _
      rw [if_neg hz]
      rfl

/-- Witness for C4 at a concrete first tick. -/
theorem tick_windowed_average_witness :
    (initState ⟨0, 0⟩ 0).prevAt < 1 ∧
    ((tick (initState ⟨0, 0⟩ 0) 1 (.ok ⟨4, 6⟩)).2 =
      some (tickPayload (initState ⟨0, 0⟩ 0) 1 ⟨4, 6⟩) ∧
    (tickHist (initState ⟨0, 0⟩ 0) 1 ⟨4, 6⟩).headI.t ≤ 1 ∧
    ((tickHist (initState ⟨0, 0⟩ 0) 1 ⟨4, 6⟩).headI.t < 1 →
      (tickPayload (initState ⟨0, 0⟩ 0) 1 ⟨4, 6⟩).rxBytesPerSec5m =
        (tickRx (initState ⟨0, 0⟩ 0) ⟨4, 6⟩ -
          (tickHist (initState ⟨0, 0⟩ 0) 1 ⟨4, 6⟩).headI.cumRx) /
          (1 - (tickHist (initState ⟨0, 0⟩ 0) 1 ⟨4, 6⟩).headI.t) ∧
      (tickPayload (initState ⟨0, 0⟩ 0) 1 ⟨4, 6⟩).txBytesPerSec5m =
        (tickTx (initState ⟨0, 0⟩ 0) ⟨4, 6⟩ -
          (tickHist (initState ⟨0, 0⟩ 0) 1 ⟨4, 6⟩).headI.cumTx) /
          (1 - (tickHist (initState ⟨0, 0⟩ 0) 1 ⟨4, 6⟩).headI.t)) ∧
    ((tickHist (initState ⟨0, 0⟩ 0) 1 ⟨4, 6⟩).headI.t = 1 →
      (tickHist (initState ⟨0, 0⟩ 0) 1 ⟨4, 6⟩).headI =
        ⟨1, tickRx (initState ⟨0, 0⟩ 0) ⟨4, 6⟩, tickTx (initState ⟨0, 0⟩ 0) ⟨4, 6⟩⟩ ∧
      (tickPayload (initState ⟨0, 0⟩ 0) 1 ⟨4, 6⟩).rxBytesPerSec5m =
        (tickPayload (initState ⟨0, 0⟩ 0) 1 ⟨4, 6⟩).rxBytesPerSec ∧
      (tickPayload (initState ⟨0, 0⟩ 0) 1 ⟨4, 6⟩).txBytesPerSec5m =
        (tickPayload (initState ⟨0, 0⟩ 0) 1 ⟨4, 6⟩).txBytesPerSec)) :=
  ⟨by norm_num [initState],
    tick_windowed_average (initState ⟨0, 0⟩ 0) 1 ⟨4, 6⟩ (by norm_num [initState])
      (by
        intro e he
        simp only [initState, List.mem_singleton] at he
        subst he
        norm_num)⟩

/-! ### C5: how pruning actually decides what to drop -/

/-- C5 counterexample: with the window at 300 seconds, the history
`[(t = 0), (t = 100)]` pruned at `now = 400` keeps only the entry at 100,
although the rule of the claim (drop while the second-oldest entry is older
than `now - window`) would keep both: the entry at 0 is older than the
boundary yet the entry after it is within the window, and the code drops it
anyway. -/
theorem pruneOld_differs_from_spec_rule :
    pruneOld [⟨0, 0, 0⟩, ⟨100, 1, 1⟩] 400 = [⟨100, 1, 1⟩] ∧
    pruneOldSpec [⟨0, 0, 0⟩, ⟨100, 1, 1⟩] 400 = [⟨0, 0, 0⟩, ⟨100, 1, 1⟩] ∧
    pruneOld [⟨0, 0, 0⟩, ⟨100, 1, 1⟩] 400 ≠
      pruneOldSpec [⟨0, 0, 0⟩, ⟨100, 1, 1⟩] 400 := by
  have h1 : pruneOld [⟨0, 0, 0⟩, ⟨100, 1, 1⟩] 400 = [⟨100, 1, 1⟩] := by
    norm_num [pruneOld, avgWindow]
  have h2 : pruneOldSpec [⟨0, 0, 0⟩, ⟨100, 1, 1⟩] 400 =
      [⟨0, 0, 0⟩, ⟨100, 1, 1⟩] := by
    norm_num [pruneOldSpec, avgWindow]
  refine ⟨h1, h2, ?_⟩
  rw [h1, h2]
  simp

/-- C5 amended: pruning drops a prefix of entries, each of which is itself
older than `now - window`; the result is the suffix starting either at the
first entry at or after the window boundary, or at the sole last entry when
every entry is older than the boundary. -/
theorem pruneOld_front_characterization (l : List histEntry) (now : ℚ)
    (h : l ≠ []) :
    ∃ k : ℕ, k < l.length ∧ pruneOld l now = l.drop k ∧
      (∀ e ∈ l.take k, e.t < now - avgWindow) ∧
      (k + 1 = l.length ∨
        ∀ e, (l.drop k).head? = some e → ¬ e.t < now - avgWindow) := by
  induction l with
  | nil => exact absurd rfl h
  | cons a t ih =>
    cases t with
    | nil =>
      refine ⟨0, by simp, by simp [pruneOld], by simp, Or.inl (by simp)⟩
    | cons b r =>
      by_cases hc : a.t < now - avgWindow
      · obtain ⟨k, hk1, hk2, hk3, hk4⟩ := ih (by simp)
        refine ⟨k + 1, by simpa using Nat.succ_lt_succ hk1, ?_, ?_, ?_⟩
        · rw [pruneOld, if_pos hc]
          simpa using hk2
        · intro e he
          rcases List.mem_cons.mp (by simpa using he) with he1 | he2
          · rw [he1]; exact hc
          · exact hk3 e he2
        · rcases hk4 with h4 | h4
          · exact Or.inl (by simpa using congrArg Nat.succ h4)
          · exact Or.inr (by simpa using h4)
      · refine ⟨0, by simp, ?_, by simp, Or.inr ?_⟩
        · rw [pruneOld, if_neg hc]
          simp
        · intro e he
          simp only [List.drop_zero, List.head?_cons, Option.some.injEq] at he
          rw [← he]
          exact hc

/-- Witness for C5 amended on a singleton history. -/
theorem pruneOld_front_characterization_witness :
    ([⟨7, 1, 2⟩] : List histEntry) ≠ [] ∧
    ∃ k : ℕ, k < ([⟨7, 1, 2⟩] : List histEntry).length ∧
      pruneOld [⟨7, 1, 2⟩] 1000 = ([⟨7, 1, 2⟩] : List histEntry).drop k ∧
      (∀ e ∈ ([⟨7, 1, 2⟩] : List histEntry).take k, e.t < 1000 - avgWindow) ∧
      (k + 1 = ([⟨7, 1, 2⟩] : List histEntry).length ∨
        ∀ e, (([⟨7, 1, 2⟩] : List histEntry).drop k).head? = some e →
          ¬ e.t < 1000 - avgWindow) :=
  ⟨List.cons_ne_nil _ _,
    pruneOld_front_characterization [⟨7, 1, 2⟩] 1000 (List.cons_ne_nil _ _)⟩

/-! ### C7: the windowed average depends only on the totals -/

lemma reach_initState (t0 : ℚ) (c0 : counters) : Reach t0 c0 (initState c0 t0) :=
  ⟨List.cons_ne_nil _ _, rfl, by simp [initState], by simp [initState], le_refl t0⟩

lemma tick_reach (t0 : ℚ) (c0 : counters) (s : LoopState) (now : ℚ)
    (cur : counters) (hg : Reach t0 c0 s) (h1 : s.prevAt < now)
    (h2 : now ≤ t0 + avgWindow) (h3 : s.prev.rx ≤ cur.rx)
    (h4 : s.prev.tx ≤ cur.tx) :
    Reach t0 c0 (tick s now (.ok cur)).1 ∧
    (tick s now (.ok cur)).1.prevAt = now ∧
    (tick s now (.ok cur)).1.prev = cur ∧
    (tick s now (.ok cur)).2 = some (tickPayload s now cur) ∧
    (tickPayload s now cur).rxBytesPerSec5m =
      ((cur.rx : ℚ) - (c0.rx : ℚ)) / (now - t0) ∧
    (tickPayload s now cur).txBytesPerSec5m =
      ((cur.tx : ℚ) - (c0.tx : ℚ)) / (now - t0) := by
  have hn : ¬ now - s.prevAt ≤ 0 := not_le.mpr (sub_pos.mpr h1)
  obtain ⟨e0, rest, hcons⟩ : ∃ e0 rest, s.history = e0 :: rest := by
    cases hh : s.history with
    | nil => exact absurd hh hg.ne
    | cons x xs => exact ⟨x, xs, rfl⟩
  have he0 : e0 = ⟨t0, 0, 0⟩ := by
    have hh := hg.head
    rw [hcons] at hh
    simpa using hh
  have hcut : ¬ (⟨t0, 0, 0⟩ : histEntry).t < now - avgWindow := by
    show ¬ t0 < now - avgWindow
    rw [not_lt]
    linarith
  have hkeep : tickHist s now cur =
      s.history ++ [⟨now, tickRx s cur, tickTx s cur⟩] := by
    unfold tickHist
    rw [hcons, he0, List.cons_append]
    exact pruneOld_cons_of_not_lt _ hcut
  have hhead : (tickHist s now cur).headI = ⟨t0, 0, 0⟩ := by
    rw [hkeep, hcons, he0, List.cons_append, List.headI_cons]
  have hdt : 0 < now - t0 := by linarith [hg.t0le]
  have hcumRx : tickRx s cur = (cur.rx : ℚ) - (c0.rx : ℚ) := by
    unfold tickRx deltaRx
    rw [if_pos h3, hg.cumRxEq, Nat.cast_sub h3]
    ring
  have hcumTx : tickTx s cur = (cur.tx : ℚ) - (c0.tx : ℚ) := by
    unfold tickTx deltaTx
    rw [if_pos h4, hg.cumTxEq, Nat.cast_sub h4]
    ring
  have hrx5 : (tickPayload s now cur).rxBytesPerSec5m =
      ((cur.rx : ℚ) - (c0.rx : ℚ)) / (now - t0) := by
    show (if 0 < now - (tickHist s now cur).headI.t then
        (tickRx s cur - (tickHist s now cur).headI.cumRx) /
          (now - (tickHist s now cur).headI.t)
      else deltaRx s.prev cur / (now - s.prevAt)) = _
    rw [hhead]
    show (if 0 < now - t0 then (tickRx s cur - 0) / (now - t0) else _) = _
    rw [if_pos hdt, sub_zero, hcumRx]
  have htx5 : (tickPayload s now cur).txBytesPerSec5m =
      ((cur.tx : ℚ) - (c0.tx : ℚ)) / (now - t0) := by
    show (if 0 < now - (tickHist s now cur).headI.t then
        (tickTx s cur - (tickHist s now cur).headI.cumTx) /
          (now - (tickHist s now cur).headI.t)
      else deltaTx s.prev cur / (now - s.prevAt)) = _
    rw [hhead]
    show (if 0 < now - t0 then (tickTx s cur - 0) / (now - t0) else _) = _
    rw [if_pos hdt, sub_zero, hcumTx]
  rw [tick_ok_run s now cur hn]
  refine ⟨⟨?_, ?_, ?_, ?_, ?_⟩, rfl, rfl, rfl, hrx5, htx5⟩
  · show tickHist s now cur ≠ []
    exact tickHist_ne_nil s now cur
  · show (tickHist s now cur).headI = _
    exact hhead
  · show tickRx s cur = (cur.rx : ℚ) - (c0.rx : ℚ)
    exact hcumRx
  · show tickTx s cur = (cur.tx : ℚ) - (c0.tx : ℚ)
    exact hcumTx
  · show t0 ≤ now
    linarith

lemma run_reach_final (t0 : ℚ) (c0 : counters) :
    ∀ (L : List (ℚ × counters)) (s : LoopState) (T : ℚ) (cF : counters),
      Reach t0 c0 s →
      validRun (t0 + avgWindow) s.prevAt s.prev (L ++ [(T, cF)]) = true →
      ∃ p : Payload, (tick (runTicks s L) T (.ok cF)).2 = some p ∧
        p.rxBytesPerSec5m = ((cF.rx : ℚ) - (c0.rx : ℚ)) / (T - t0) ∧
        p.txBytesPerSec5m = ((cF.tx : ℚ) - (c0.tx : ℚ)) / (T - t0) ∧
        p.totalBytesPerSec5m = p.rxBytesPerSec5m + p.txBytesPerSec5m ∧
        p.rxBitsPerSec5m = 8 * p.rxBytesPerSec5m ∧
        p.txBitsPerSec5m = 8 * p.txBytesPerSec5m ∧
        p.totalBitsPerSec5m = 8 * p.totalBytesPerSec5m
  | [], s, T, cF, hg, hv => by
    simp only [List.nil_append, validRun, Bool.and_eq_true, decide_eq_true_eq] at hv
    obtain ⟨⟨⟨⟨h1, h2⟩, h3⟩, h4⟩, -⟩ := hv
    obtain ⟨-, -, -, hsome, hrx, htx⟩ := tick_reach t0 c0 s T cF hg h1 h2 h3 h4
    exact ⟨tickPayload s T cF, hsome, hrx, htx, rfl, mul_comm _ 8, mul_comm _ 8,
      mul_comm _ 8⟩
  | (now, cur) :: L, s, T, cF, hg, hv => by
    simp only [List.cons_append, validRun, Bool.and_eq_true, decide_eq_true_eq] at hv
    obtain ⟨⟨⟨⟨h1, h2⟩, h3⟩, h4⟩, htail⟩ := hv
    obtain ⟨hreach, hAt, hPrev, -, -, -⟩ := tick_reach t0 c0 s now cur hg h1 h2 h3 h4
    have htail2 : validRun (t0 + avgWindow) (tick s now (.ok cur)).1.prevAt
        (tick s now (.ok cur)).1.prev (L ++ [(T, cF)]) = true := by
      rw [hAt, hPrev]
      exact htail
    simpa [runTicks] using run_reach_final t0 c0 L (tick s now (.ok cur)).1 T cF hreach htail2

/-- C7: two tick sequences that stay within one window of the same start
state and end at the same time with the same counter totals report the same
windowed average rates, namely total delta over total elapsed time,
regardless of how many ticks each sequence took. -/
theorem windowed_average_interval_invariant (t0 : ℚ) (c0 : counters)
    (L1 L2 : List (ℚ × counters)) (T : ℚ) (cF : counters)
    (h1 : validRun (t0 + avgWindow) t0 c0 (L1 ++ [(T, cF)]) = true)
    (h2 : validRun (t0 + avgWindow) t0 c0 (L2 ++ [(T, cF)]) = true) :
    ∃ p1 p2 : Payload,
      (tick (runTicks (initState c0 t0) L1) T (.ok cF)).2 = some p1 ∧
      (tick (runTicks (initState c0 t0) L2) T (.ok cF)).2 = some p2 ∧
      p1.rxBytesPerSec5m = ((cF.rx : ℚ) - (c0.rx : ℚ)) / (T - t0) ∧
      p1.rxBytesPerSec5m = p2.rxBytesPerSec5m ∧
      p1.txBytesPerSec5m = p2.txBytesPerSec5m ∧
      p1.totalBytesPerSec5m = p2.totalBytesPerSec5m ∧
      p1.rxBitsPerSec5m = p2.rxBitsPerSec5m ∧
      p1.txBitsPerSec5m = p2.txBitsPerSec5m ∧
      p1.totalBitsPerSec5m = p2.totalBitsPerSec5m := by
  obtain ⟨p1, e1, rx1, tx1, tot1, rb1, tb1, totb1⟩ :=
    run_reach_final t0 c0 L1 (initState c0 t0) T cF (reach_initState t0 c0) h1
  obtain ⟨p2, e2, rx2, tx2, tot2, rb2, tb2, totb2⟩ :=
    run_reach_final t0 c0 L2 (initState c0 t0) T cF (reach_initState t0 c0) h2
  have hrx : p1.rxBytesPerSec5m = p2.rxBytesPerSec5m := by rw [rx1, rx2]
  have htx : p1.txBytesPerSec5m = p2.txBytesPerSec5m := by rw [tx1, tx2]
  have htot : p1.totalBytesPerSec5m = p2.totalBytesPerSec5m := by
    rw [tot1, tot2, hrx, htx]
  exact ⟨p1, p2, e1, e2, rx1, hrx, htx, htot,
    by rw [rb1, rb2, hrx], by rw [tb1, tb2, htx], by rw [totb1, totb2, htot]⟩

/-- Witness for C7: one tick of delta 10 over 2 seconds versus two ticks of
delta 5 each over 1 second each. -/
theorem windowed_average_interval_invariant_witness :
    validRun (0 + avgWindow) 0 ⟨0, 0⟩ ([] ++ [((2 : ℚ), (⟨10, 0⟩ : counters))]) = true ∧
    validRun (0 + avgWindow) 0 ⟨0, 0⟩
      ([((1 : ℚ), (⟨5, 0⟩ : counters))] ++ [((2 : ℚ), (⟨10, 0⟩ : counters))]) = true ∧
    ∃ p1 p2 : Payload,
      (tick (runTicks (initState ⟨0, 0⟩ 0) []) 2 (.ok ⟨10, 0⟩)).2 = some p1 ∧
      (tick (runTicks (initState ⟨0, 0⟩ 0) [((1 : ℚ), (⟨5, 0⟩ : counters))]) 2
        (.ok ⟨10, 0⟩)).2 = some p2 ∧
      p1.rxBytesPerSec5m = (((10 : ℕ) : ℚ) - ((0 : ℕ) : ℚ)) / ((2 : ℚ) - 0) ∧
      p1.rxBytesPerSec5m = p2.rxBytesPerSec5m ∧
      p1.txBytesPerSec5m = p2.txBytesPerSec5m ∧
      p1.totalBytesPerSec5m = p2.totalBytesPerSec5m ∧
      p1.rxBitsPerSec5m = p2.rxBitsPerSec5m ∧
      p1.txBitsPerSec5m = p2.txBitsPerSec5m ∧
      p1.totalBitsPerSec5m = p2.totalBitsPerSec5m := by
  have hv1 : validRun (0 + avgWindow) 0 ⟨0, 0⟩
      ([] ++ [((2 : ℚ), (⟨10, 0⟩ : counters))]) = true := by
    norm_num [validRun, avgWindow]
  have hv2 : validRun (0 + avgWindow) 0 ⟨0, 0⟩
      ([((1 : ℚ), (⟨5, 0⟩ : counters))] ++ [((2 : ℚ), (⟨10, 0⟩ : counters))]) = true := by
    norm_num [validRun, avgWindow]
  exact ⟨hv1, hv2,
    windowed_average_interval_invariant 0 ⟨0, 0⟩ []
      [((1 : ℚ), (⟨5, 0⟩ : counters))] 2 ⟨10, 0⟩ hv1 hv2⟩

/-! ### Lemmas about the counter reader -/

lemma readTotalsAux_header (line : List Char) (rest : List (List Char)) (n : ℕ)
    (c : counters) (h : n < 2) :
    readTotalsAux (line :: rest) n c = readTotalsAux rest (n + 1) c := by
  simp only [readTotalsAux, if_pos h]

lemma readTotalsAux_blank (line : List Char) (rest : List (List Char)) (n : ℕ)
    (c : counters) (h : ¬ n < 2) (hb : (goTrim line).isEmpty = true) :
    readTotalsAux (line :: rest) n c = readTotalsAux rest (n + 1) c := by
  simp only [readTotalsAux, if_neg h, hb, if_true]

lemma readTotalsAux_two (line : List Char) (rest : List (List Char)) (n : ℕ)
    (c : counters) (p0 p1 : List Char) (h : ¬ n < 2)
    (hb : (goTrim line).isEmpty = false)
    (hp : splitOnColon (goTrim line) = [p0, p1])
    (hf : ifaceSelected (goTrim p0) = false) :
    readTotalsAux (line :: rest) n c = readTotalsAux rest (n + 1) c := by
  simp only [readTotalsAux, if_neg h, hb, Bool.false_eq_true, if_false, hp, hf]

lemma readTotalsAux_not_two (line : List Char) (rest : List (List Char)) (n : ℕ)
    (c : counters) (h : ¬ n < 2)
    (hlen : (splitOnColon (goTrim line)).length ≠ 2) :
    readTotalsAux (line :: rest) n c = readTotalsAux rest (n + 1) c := by
  by_cases hb : (goTrim line).isEmpty
  · simp only [readTotalsAux, if_neg h, hb, if_true]
  · have hb2 : (goTrim line).isEmpty = false := by simpa using hb
    rcases hp : splitOnColon (goTrim line) with - | ⟨p0, - | ⟨p1, - | ⟨p2, t⟩⟩⟩
    · simp only [readTotalsAux, if_neg h, hb2, Bool.false_eq_true, if_false, hp]
    · simp only [readTotalsAux, if_neg h, hb2, Bool.false_eq_true, if_false, hp]
    · exact absurd (by rw [hp]; rfl) hlen
    · simp only [readTotalsAux, if_neg h, hb2, Bool.false_eq_true, if_false, hp]

lemma readTotalsAux_step (line : List Char) (rest : List (List Char)) (n : ℕ)
    (c : counters) :
    (∃ msg, readTotalsAux (line :: rest) n c = .error msg) ∨
    (∃ c2, readTotalsAux (line :: rest) n c = readTotalsAux rest (n + 1) c2) := by
  by_cases h0 : n < 2
  · exact Or.inr ⟨c, readTotalsAux_header line rest n c h0⟩
  · by_cases hb : (goTrim line).isEmpty
    · exact Or.inr ⟨c, readTotalsAux_blank line rest n c h0 hb⟩
    · have hb2 : (goTrim line).isEmpty = false := by simpa using hb
      rcases hp : splitOnColon (goTrim line) with - | ⟨p0, - | ⟨p1, - | ⟨p2, t⟩⟩⟩
      · exact Or.inr ⟨c, readTotalsAux_not_two line rest n c h0 (by rw [hp]; simp)⟩
      · exact Or.inr ⟨c, readTotalsAux_not_two line rest n c h0 (by rw [hp]; simp)⟩
      · by_cases hf : ifaceSelected (goTrim p0)
        · by_cases hlen : (goFields p1).length < 16
          · refine Or.inl ⟨"unexpected format for " ++ String.mk (goTrim p0), ?_⟩
            simp only [readTotalsAux, if_neg h0, hb2, Bool.false_eq_true, if_false,
              hp, hf, if_true, if_pos hlen]
          · rcases hr : parseUint64 ((goFields p1).getD 0 []) with - | rx
            · refine Or.inl ⟨"parse counters failed for " ++ String.mk (goTrim p0), ?_⟩
              simp only [readTotalsAux, if_neg h0, hb2, Bool.false_eq_true, if_false,
                hp, hf, if_true, if_neg hlen, hr]
            · rcases ht : parseUint64 ((goFields p1).getD 8 []) with - | tx
              · refine Or.inl ⟨"parse counters failed for " ++ String.mk (goTrim p0), ?_⟩
                simp only [readTotalsAux, if_neg h0, hb2, Bool.false_eq_true, if_false,
                  hp, hf, if_true, if_neg hlen, hr, ht]
              · refine Or.inr ⟨⟨(c.rx + rx) % u64, (c.tx + tx) % u64⟩, ?_⟩
                simp only [readTotalsAux, if_neg h0, hb2, Bool.false_eq_true, if_false,
                  hp, hf, if_true, if_neg hlen, hr, ht]
        · have hf2 : ifaceSelected (goTrim p0) = false := by simpa using hf
          exact Or.inr ⟨c, readTotalsAux_two line rest n c p0 p1 h0 hb2 hp hf2⟩
      · exact Or.inr ⟨c, readTotalsAux_not_two line rest n c h0 (by rw [hp]; simp)⟩

lemma readTotalsAux_error_of_malformed_head (line : List Char)
    (rest : List (List Char)) (n : ℕ) (c : counters) (h : ¬ n < 2)
    (hbad : lineMalformed line = true) :
    ∃ msg, readTotalsAux (line :: rest) n c = .error msg := by
  rcases hp : splitOnColon (goTrim line) with - | ⟨p0, - | ⟨p1, - | ⟨p2, t⟩⟩⟩
  · simp [lineMalformed, hp] at hbad
  · simp [lineMalformed, hp] at hbad
  · simp only [lineMalformed, hp, Bool.and_eq_true, Bool.or_eq_true,
      decide_eq_true_eq, Option.isNone_iff_eq_none] at hbad
    obtain ⟨hf, hor⟩ := hbad
    have hb2 : (goTrim line).isEmpty = false := by
      rcases he : (goTrim line).isEmpty with - | -
      · rfl
      · rw [List.isEmpty_iff] at he
        rw [he] at hp
        simp [splitOnColon] at hp
    by_cases hlen : (goFields p1).length < 16
    · refine ⟨"unexpected format for " ++ String.mk (goTrim p0), ?_⟩
      simp only [readTotalsAux, if_neg h, hb2, Bool.false_eq_true, if_false,
        hp, hf, if_true, if_pos hlen]
    · rcases Option.eq_none_or_eq_some (parseUint64 ((goFields p1).getD 0 []))
        with hr | ⟨rx, hr⟩
      · refine ⟨"parse counters failed for " ++ String.mk (goTrim p0), ?_⟩
        simp only [readTotalsAux, if_neg h, hb2, Bool.false_eq_true, if_false,
          hp, hf, if_true, if_neg hlen, hr]
      · rcases Option.eq_none_or_eq_some (parseUint64 ((goFields p1).getD 8 []))
          with ht | ⟨tx, ht⟩
        · refine ⟨"parse counters failed for " ++ String.mk (goTrim p0), ?_⟩
          simp only [readTotalsAux, if_neg h, hb2, Bool.false_eq_true, if_false,
            hp, hf, if_true, if_neg hlen, hr, ht]
        · rcases hor with (hor | hor) | hor
          · exact absurd hor hlen
          · rw [hr] at hor
            exact Option.noConfusion hor
          · rw [ht] at hor
            exact Option.noConfusion hor
  · simp [lineMalformed, hp] at hbad

lemma readTotalsAux_error_of_bad :
    ∀ (ls : List (List Char)) (n : ℕ) (c : counters) (i : ℕ),
      i < ls.length → 2 ≤ n + i → lineMalformed (ls.getD i []) = true →
      ∃ msg, readTotalsAux ls n c = .error msg
  | [], _, _, i, hi, _, _ => absurd hi (by simp)
  | line :: rest, n, c, 0, _, hn, hbad => by
    have h0 : ¬ n < 2 := by omega
    exact readTotalsAux_error_of_malformed_head line rest n c h0 (by simpa using hbad)
  | line :: rest, n, c, i + 1, hi, hn, hbad => by
    rcases readTotalsAux_step line rest n c with ⟨msg, hmsg⟩ | ⟨c2, hc2⟩
    · exact ⟨msg, hmsg⟩
    · rw [hc2]
      exact readTotalsAux_error_of_bad rest (n + 1) c2 i (by simpa using hi)
        (by omega) (by simpa using hbad)

lemma readTotalsAux_all_skipped :
    ∀ (ls : List (List Char)) (n : ℕ) (c : counters),
      (∀ line ∈ ls, linePasses line = false) → readTotalsAux ls n c = .ok c
  | [], _, _, _ => rfl
  | line :: rest, n, c, hall => by
    have hline : linePasses line = false := hall line (by simp)
    have hnext := readTotalsAux_all_skipped rest (n + 1) c
      (fun l hl => hall l (by simp [hl]))
    by_cases h0 : n < 2
    · rw [readTotalsAux_header line rest n c h0, hnext]
    · by_cases hb : (goTrim line).isEmpty
      · rw [readTotalsAux_blank line rest n c h0 hb, hnext]
      · have hb2 : (goTrim line).isEmpty = false := by simpa using hb
        rcases hp : splitOnColon (goTrim line) with - | ⟨p0, - | ⟨p1, - | ⟨p2, t⟩⟩⟩
        · rw [readTotalsAux_not_two line rest n c h0 (by rw [hp]; simp), hnext]
        · rw [readTotalsAux_not_two line rest n c h0 (by rw [hp]; simp), hnext]
        · have hf : ifaceSelected (goTrim p0) = false := by
            simpa [linePasses, hp] using hline
          rw [readTotalsAux_two line rest n c p0 p1 h0 hb2 hp hf, hnext]
        · rw [readTotalsAux_not_two line rest n c h0 (by rw [hp]; simp), hnext]

/-! ### C8: a malformed matching line aborts the whole read -/

/-- C8: whenever some line at index at least 2 passes the interface filter
but has fewer than 16 fields or an unparseable receive or transmit field,
the whole read returns an error and no counter snapshot. -/
theorem readTotals_malformed_matching_line_fails (lines : List String) (i : ℕ)
    (hi : i < lines.length) (h2i : 2 ≤ i)
    (hbad : lineMalformed ((lines.map String.data).getD i []) = true) :
    ∃ msg, readTotals lines = .error msg := by
  unfold readTotals
  exact readTotalsAux_error_of_bad (lines.map String.data) 0 ⟨0, 0⟩ i
    (by simpa using hi) (by omega) hbad

/-- Witness for C8 on a table whose en0 line has only 3 fields. -/
theorem readTotals_malformed_matching_line_fails_witness :
    2 < (["h1", "h2", "en0: 1 2 3"] : List String).length ∧
    lineMalformed (((["h1", "h2", "en0: 1 2 3"] : List String).map
      String.data).getD 2 []) = true ∧
    ∃ msg, readTotals ["h1", "h2", "en0: 1 2 3"] = .error msg :=
  ⟨by decide, by decide,
    readTotals_malformed_matching_line_fails ["h1", "h2", "en0: 1 2 3"] 2
      (by decide) (by decide) (by decide)⟩

/-! ### C9: the end-to-end aggregation scenario -/

/-- C9 counterexample: a table whose two traffic-bearing interfaces are
non-loopback but not named en* aggregates to zero, not to rx=2000/tx=1000;
the filter keeps only en*-named interfaces, not every non-loopback one. -/
theorem readTotals_non_loopback_filtered_out :
    readTotals tableWl = .ok ⟨0, 0⟩ ∧
    readTotals tableWl ≠ .ok ⟨2000, 1000⟩ := by
  have h0 : readTotals tableWl = .ok ⟨0, 0⟩ := rfl
  refine ⟨h0, ?_⟩
  rw [h0]
  simp

/-- C9 amended: with the two interfaces named en0 and en1, the scenario
holds: the reads aggregate to rx=2000/tx=1000 and rx=6000/tx=3000, and the
tick one second later reports rx=4000 B/s, tx=2000 B/s, total 6000 B/s and
48000 bits/s. -/
theorem end_to_end_en_interfaces :
    readTotals tableEn1 = .ok ⟨2000, 1000⟩ ∧
    readTotals tableEn2 = .ok ⟨6000, 3000⟩ ∧
    ∃ p : Payload,
      (tick (initState ⟨2000, 1000⟩ 0) 1 (readTotals tableEn2)).2 = some p ∧
      p.rxBytesPerSec = 4000 ∧ p.txBytesPerSec = 2000 ∧
      p.totalBytesPerSec = 6000 ∧ p.totalBitsPerSec = 48000 := by
  have h2 : readTotals tableEn2 = .ok ⟨6000, 3000⟩ := rfl
  refine ⟨rfl, h2, ?_⟩
  rw [h2, tick_ok_run _ _ _ (by norm_num [initState])]
  refine ⟨tickPayload (initState ⟨2000, 1000⟩ 0) 1 ⟨6000, 3000⟩, rfl, ?_, ?_, ?_, ?_⟩
  · show deltaRx (initState ⟨2000, 1000⟩ 0).prev ⟨6000, 3000⟩ /
      ((1 : ℚ) - (initState ⟨2000, 1000⟩ 0).prevAt) = 4000
    norm_num [deltaRx, initState]
  · show deltaTx (initState ⟨2000, 1000⟩ 0).prev ⟨6000, 3000⟩ /
      ((1 : ℚ) - (initState ⟨2000, 1000⟩ 0).prevAt) = 2000
    norm_num [deltaTx, initState]
  · show deltaRx (initState ⟨2000, 1000⟩ 0).prev ⟨6000, 3000⟩ /
      ((1 : ℚ) - (initState ⟨2000, 1000⟩ 0).prevAt) +
      deltaTx (initState ⟨2000, 1000⟩ 0).prev ⟨6000, 3000⟩ /
      ((1 : ℚ) - (initState ⟨2000, 1000⟩ 0).prevAt) = 6000
    norm_num [deltaRx, deltaTx, initState]
  · show (deltaRx (initState ⟨2000, 1000⟩ 0).prev ⟨6000, 3000⟩ /
      ((1 : ℚ) - (initState ⟨2000, 1000⟩ 0).prevAt) +
      deltaTx (initState ⟨2000, 1000⟩ 0).prev ⟨6000, 3000⟩ /
      ((1 : ℚ) - (initState ⟨2000, 1000⟩ 0).prevAt)) * 8 = 48000
    norm_num [deltaRx, deltaTx, initState]

/-! ### C10: what is skipped silently and what can fail -/

/-- C10: the first two lines, blank lines, lines that do not split on the
colon into exactly two parts, and lines whose interface is `lo` or does not
start with en are all skipped without error or contribution; if no line
passes the filter, the read returns the accumulator unchanged, so a
malformed line for a filtered-out interface can never produce an error. -/
theorem readTotals_skip_rules :
    (∀ (line : List Char) (rest : List (List Char)) (n : ℕ) (c : counters),
      n < 2 → readTotalsAux (line :: rest) n c = readTotalsAux rest (n + 1) c) ∧
    (∀ (line : List Char) (rest : List (List Char)) (n : ℕ) (c : counters),
      ¬ n < 2 → (goTrim line).isEmpty = true →
      readTotalsAux (line :: rest) n c = readTotalsAux rest (n + 1) c) ∧
    (∀ (line : List Char) (rest : List (List Char)) (n : ℕ) (c : counters),
      ¬ n < 2 → (splitOnColon (goTrim line)).length ≠ 2 →
      readTotalsAux (line :: rest) n c = readTotalsAux rest (n + 1) c) ∧
    (∀ (line : List Char) (rest : List (List Char)) (n : ℕ) (c : counters)
      (p0 p1 : List Char),
      ¬ n < 2 → (goTrim line).isEmpty = false →
      splitOnColon (goTrim line) = [p0, p1] →
      ifaceSelected (goTrim p0) = false →
      readTotalsAux (line :: rest) n c = readTotalsAux rest (n + 1) c) ∧
    (∀ (ls : List (List Char)) (n : ℕ) (c : counters),
      (∀ line ∈ ls, linePasses line = false) → readTotalsAux ls n c = .ok c) :=
  ⟨readTotalsAux_header, readTotalsAux_blank, readTotalsAux_not_two,
    readTotalsAux_two, readTotalsAux_all_skipped⟩

/-- Witness for C10: a table of only filtered-out, blank and malformed
non-matching lines reads back the accumulator unchanged. -/
theorem readTotals_skip_rules_witness :
    (∀ line ∈ (["lo: 1 2 3", "xyz", "", "a:b:c"].map String.data),
      linePasses line = false) ∧
    readTotalsAux (["lo: 1 2 3", "xyz", "", "a:b:c"].map String.data) 5 ⟨3, 4⟩ =
      .ok ⟨3, 4⟩ :=
  ⟨by decide,
    readTotals_skip_rules.2.2.2.2 (["lo: 1 2 3", "xyz", "", "a:b:c"].map String.data)
      5 ⟨3, 4⟩ (by decide)⟩

end NetworkStater
